import Mathlib

/-!
Shallow embedding of the tunneling-rate estimation engine of
VevaciousPlusPlus (sources: `BounceActionTunneler.cpp`,
`NodesOnBisectingPlanes.cpp`, `GradientFromStartingPoints.cpp`), together
with theorems settling the specification claims about it.

Machine `double` values are modelled as real numbers; `size_t` values as
natural numbers.  Virtual member functions implemented outside the core
(the potential evaluator, the gradient minimizer, the bounce-action
solver, the below-critical-temperature test) are abstract parameters.
-/

namespace VevaciousPlusPlus

/-! NodesOnBisectingPlanes: node-count computation

Embedding of the loop in `NodesOnBisectingPlanes::NodesOnBisectingPlanes`
(`NodesOnBisectingPlanes.cpp`, lines 24-31):

```cpp
this->numberOfIntermediateNodes = 1;
size_t numberOfSplits( 0 );
while( this->numberOfIntermediateNodes <= numberOfIntermediateNodes )
{
  this->numberOfIntermediateNodes *= 2;
  ++numberOfSplits;
}
--(this->numberOfIntermediateNodes);
```

`nodeCountLoop requested current splits` runs the `while` loop; the
positivity hypothesis on `current` (true at the entry value `1`) makes
the doubling loop terminate. -/

def nodeCountLoop (requested : ℕ) (current : ℕ) (splits : ℕ)
    (hc : 0 < current) : ℕ × ℕ :=
  if current ≤ requested then
    nodeCountLoop requested (2 * current) (splits + 1) (by omega)
  else
    (current, splits)
termination_by requested + 1 - current
decreasing_by omega

/-- Number of intermediate nodes actually used: the loop result minus one
(the final decrement in the constructor). -/
def numberOfIntermediateNodes (requested : ℕ) : ℕ :=
  (nodeCountLoop requested 1 0 one_pos).1 - 1

/-- Number of doubling steps performed by the loop. -/
def numberOfSplits (requested : ℕ) : ℕ :=
  (nodeCountLoop requested 1 0 one_pos).2

/-! NodesOnBisectingPlanes: adjustment order and side-node indices

Embedding of the scheduling loop of the constructor
(`NodesOnBisectingPlanes.cpp`, lines 78-97):

```cpp
size_t segmentSize( pathNodes.size() - 1 );
size_t newSegmentsInSplit( 1 );
for( size_t splitCount( 0 ); splitCount < numberOfSplits; ++splitCount )
{
  segmentSize /= 2;
  for( size_t whichSegment( 0 ); whichSegment < newSegmentsInSplit;
       ++whichSegment )
  {
    size_t const currentIndex( segmentSize * ( 1 + ( 2 * whichSegment ) ) );
    adjustmentOrder.push_back( currentIndex );
    sideNodeIndices[ currentIndex ].first = ( currentIndex - segmentSize );
    sideNodeIndices[ currentIndex ].second = ( currentIndex + segmentSize );
  }
  newSegmentsInSplit *= 2;
}
```

Each produced entry is the triple
(`currentIndex`, `sideNodeIndices[currentIndex].first`,
`sideNodeIndices[currentIndex].second`), listed in adjustment order. -/

def buildAdjustmentPlan : ℕ → ℕ → ℕ → List (ℕ × ℕ × ℕ)
  | 0, _, _ => []
  | splitsLeft + 1, segmentSize, newSegmentsInSplit =>
    ((List.range newSegmentsInSplit).map (fun whichSegment =>
      let currentIndex := (segmentSize / 2) * (1 + 2 * whichSegment)
      (currentIndex, currentIndex - segmentSize / 2,
        currentIndex + segmentSize / 2)))
      ++ buildAdjustmentPlan splitsLeft (segmentSize / 2)
          (2 * newSegmentsInSplit)

/-- Full node-ordering plan of the constructor: `pathNodes.size()` is
`numberOfIntermediateNodes + 2`, so the initial `segmentSize` is
`numberOfIntermediateNodes + 2 - 1`. -/
def nodesOnBisectingPlanesPlan (requested : ℕ) : List (ℕ × ℕ × ℕ) :=
  buildAdjustmentPlan (numberOfSplits requested)
    (numberOfIntermediateNodes requested + 2 - 1) 1

/-- Topological validity of a schedule: each scheduled entry may name as
side neighbors only indices from `available` (initially the two endpoint
indices) or indices scheduled strictly earlier. -/
def validOrder (available : Set ℕ) : List (ℕ × ℕ × ℕ) → Prop
  | [] => True
  | entry :: rest =>
      entry.2.1 ∈ available ∧ entry.2.2 ∈ available ∧
      validOrder (insert entry.1 available) rest

/-- The set of indices available after additionally scheduling every
entry of a plan fragment. -/
def scheduleInserts (available : Set ℕ) (plan : List (ℕ × ℕ × ℕ)) :
    Set ℕ :=
  plan.foldl (fun accumulated entry => insert entry.1 accumulated)
    available

/-! TunnelingCalculator state and the orchestrator

Embedding of `BounceActionTunneler::CalculateTunneling`
(`BounceActionTunneler.cpp`, lines 97-178).  The member fields holding
results are gathered in `TunnelingState`; the virtual sub-calculations
`CalculateQuantumTunneling` and `CalculateThermalTunneling` (which read
and write those members) are abstract state transformers; the potential
function is an abstract function on field configurations.  A thrown
`std::runtime_error` is modelled by an `Option String` carried next to
the member state, which on a throw is exactly the state at the moment of
the throw. -/

inductive TunnelingStrategy where
  | NoTunneling : TunnelingStrategy
  | JustQuantum : TunnelingStrategy
  | JustThermal : TunnelingStrategy
  | QuantumThenThermal : TunnelingStrategy
  | ThermalThenQuantum : TunnelingStrategy
deriving DecidableEq

structure TunnelingState where
  quantumSurvivalProbability : ℝ
  quantumLifetimeInSeconds : ℝ
  thermalSurvivalProbability : ℝ
  partialThermalDecayWidth : ℝ
  dominantTemperatureInGigaElectronVolts : ℝ
  logOfMinusLogOfQuantumProbability : ℝ
  logOfMinusLogOfThermalProbability : ℝ

structure TunnelingOutcome where
  finalState : TunnelingState
  thrownError : Option String

/-- Resetting all result variables to their not-calculated values
(`BounceActionTunneler.cpp`, lines 117-122). -/
def resetNotCalculated (state : TunnelingState) : TunnelingState :=
  { state with
    quantumSurvivalProbability := -1
    quantumLifetimeInSeconds := -1
    thermalSurvivalProbability := -1
    partialThermalDecayWidth := -1
    dominantTemperatureInGigaElectronVolts := -1 }

noncomputable def CalculateTunneling (tunnelingStrategy : TunnelingStrategy)
    (survivalProbabilityThreshold : ℝ)
    (potentialFunction : List ℝ → ℝ)
    (falseVacuumConfiguration trueVacuumConfiguration : List ℝ)
    (calculateQuantumTunneling : TunnelingState → TunnelingState)
    (calculateThermalTunneling : TunnelingState → TunnelingState)
    (state : TunnelingState) : TunnelingOutcome :=
  if ¬ (potentialFunction trueVacuumConfiguration
        < potentialFunction falseVacuumConfiguration) then
    { finalState := state
      thrownError := some "the given deeper vacuum was not actually deeper, so tunneling is impossible." }
  else
    let stateAfterReset := resetNotCalculated state
    match tunnelingStrategy with
    | TunnelingStrategy.NoTunneling =>
      { finalState := stateAfterReset, thrownError := none }
    | TunnelingStrategy.JustQuantum =>
      { finalState := calculateQuantumTunneling stateAfterReset
        thrownError := none }
    | TunnelingStrategy.JustThermal =>
      { finalState := calculateThermalTunneling stateAfterReset
        thrownError := none }
    | TunnelingStrategy.QuantumThenThermal =>
      let afterQuantum := calculateQuantumTunneling stateAfterReset
      if afterQuantum.quantumSurvivalProbability
          > survivalProbabilityThreshold then
        { finalState := calculateThermalTunneling afterQuantum
          thrownError := none }
      else
        { finalState := afterQuantum, thrownError := none }
    | TunnelingStrategy.ThermalThenQuantum =>
      let afterThermal := calculateThermalTunneling stateAfterReset
      if afterThermal.thermalSurvivalProbability
          > survivalProbabilityThreshold then
        { finalState := calculateQuantumTunneling afterThermal
          thrownError := none }
      else
        { finalState := afterThermal, thrownError := none }

/-! Numerical constants of BounceActionTunneler

From `BounceActionTunneler.cpp`, lines 12-28.  The maximum
double-precision value is `(2 - 2^-52) * 2^1023 = 2^1024 - 2^971`. -/

noncomputable def doubleMaximumValue : ℝ := 2 ^ 1024 - 2 ^ 971

noncomputable def maximumPowerOfNaturalExponent : ℝ :=
  Real.log (0.5 * doubleMaximumValue)

noncomputable def hBarInGigaElectronVoltSeconds : ℝ := 6.58211928e-25

noncomputable def ageOfKnownUniverseInSeconds : ℝ := 4.3e17

noncomputable def ageOfKnownUniverseInInverseGigaElectronVolts : ℝ :=
  ageOfKnownUniverseInSeconds / hBarInGigaElectronVoltSeconds

/-! Quantum tunneling probability

Embedding of `BounceActionTunneler::CalculateQuantumTunneling`
(`BounceActionTunneler.cpp`, lines 182-246).  The bounce action returned
by the external solver and the squared tunneling scale of the potential
are abstract real inputs.  Warnings sent to `WarningLogger::LogWarning`
are collected in a list. -/

noncomputable def CalculateQuantumTunneling (quantumAction : ℝ)
    (scaleSquaredRelevantToTunneling : ℝ) (state : TunnelingState) :
    TunnelingState × List String :=
  let fourthRootOfSolitonicFactor :=
    Real.sqrt scaleSquaredRelevantToTunneling
  let newLogOfMinusLog :=
    Real.log ((ageOfKnownUniverseInSeconds
          * hBarInGigaElectronVoltSeconds)
        / fourthRootOfSolitonicFactor)
      - 0.25 * quantumAction
  let stateWithLog :=
    { state with logOfMinusLogOfQuantumProbability := newLogOfMinusLog }
  if quantumAction ≥ maximumPowerOfNaturalExponent then
    ({ stateWithLog with
        quantumLifetimeInSeconds := 1.0e100
        quantumSurvivalProbability := 1 },
      ["The calculated bounce action was so large and positive that exponentiating it would result in an overflow error, so capping the lifetime and setting the survival probability to one."])
  else if quantumAction ≤ -maximumPowerOfNaturalExponent then
    ({ stateWithLog with
        quantumLifetimeInSeconds := 0.1
        quantumSurvivalProbability := 0 },
      ["The calculated bounce action was so large and negative that exponentiating it would result in an overflow error, so capping the lifetime and setting the survival probability to zero."])
  else
    let quantumLifetimeInSeconds :=
      Real.exp quantumAction * hBarInGigaElectronVoltSeconds
        / (ageOfKnownUniverseInInverseGigaElectronVolts ^ 3
            * fourthRootOfSolitonicFactor ^ 4)
    let survivalExponent :=
      ageOfKnownUniverseInSeconds / quantumLifetimeInSeconds
    if survivalExponent ≥ maximumPowerOfNaturalExponent then
      ({ stateWithLog with
          quantumLifetimeInSeconds := quantumLifetimeInSeconds
          quantumSurvivalProbability := 0 },
        ["The calculated decay width was so large that exponentiating it would result in an overflow error, so setting the survival probability to zero."])
    else
      ({ stateWithLog with
          quantumLifetimeInSeconds := quantumLifetimeInSeconds
          quantumSurvivalProbability := Real.exp (-survivalExponent) },
        [])

/-! Thermal survival probability

Embedding of `BounceActionTunneler::SetThermalSurvivalProbability`
(`BounceActionTunneler.cpp`, lines 413-452). -/

noncomputable def SetThermalSurvivalProbability (state : TunnelingState) :
    TunnelingState × List String :=
  if state.logOfMinusLogOfThermalProbability
      ≥ maximumPowerOfNaturalExponent then
    ({ state with thermalSurvivalProbability := 0 },
      ["The calculated bounce action was so large and positive that exponentiating it would result in an overflow error, so setting the survival probability to zero."])
  else if state.logOfMinusLogOfThermalProbability
      ≤ -maximumPowerOfNaturalExponent then
    ({ state with thermalSurvivalProbability := 1 },
      ["The calculated bounce action was so large and negative that exponentiating it would result in an overflow error, so setting the survival probability to one."])
  else if Real.exp state.logOfMinusLogOfThermalProbability
      ≥ maximumPowerOfNaturalExponent then
    ({ state with thermalSurvivalProbability := 0 },
      ["The calculated integrated decay width was so large and positive that exponentiating it would result in an overflow error, so setting the survival probability to zero."])
  else
    let exponentiated :=
      Real.exp (-(Real.exp state.logOfMinusLogOfThermalProbability))
    ({ state with thermalSurvivalProbability := exponentiated }, [])

/-! Temperature-range narrowing loop

Embedding of the final refinement loop of
`BounceActionTunneler::SetMaximumTunnelingTemperatureRange`
(`BounceActionTunneler.cpp`, lines 384-402):

```cpp
for( unsigned int narrowingStep( 0 ); narrowingStep < temperatureAccuracy;
     ++narrowingStep )
{
  temperatureGuess = sqrt( rangeOfMaxTemperature.first
                           * rangeOfMaxTemperature.second );
  if( BelowCriticalTemperature( ... temperatureGuess ... ) )
  { rangeOfMaxTemperature.first = temperatureGuess; }
  else
  { rangeOfMaxTemperature.second = temperatureGuess; }
}
```

`BelowCriticalTemperature` is a member function evaluating the potential,
abstracted here as a boolean function of the temperature. -/

noncomputable def narrowingStep (belowCriticalTemperature : ℝ → Bool)
    (rangeOfMaxTemperature : ℝ × ℝ) : ℝ × ℝ :=
  let temperatureGuess :=
    Real.sqrt (rangeOfMaxTemperature.1 * rangeOfMaxTemperature.2)
  if belowCriticalTemperature temperatureGuess then
    (temperatureGuess, rangeOfMaxTemperature.2)
  else
    (rangeOfMaxTemperature.1, temperatureGuess)

noncomputable def narrowingLoop (belowCriticalTemperature : ℝ → Bool) :
    ℕ → ℝ × ℝ → ℝ × ℝ
  | 0, rangeOfMaxTemperature => rangeOfMaxTemperature
  | stepsLeft + 1, rangeOfMaxTemperature =>
    narrowingLoop belowCriticalTemperature stepsLeft
      (narrowingStep belowCriticalTemperature rangeOfMaxTemperature)

/-! Gradient minimization retry loop

Embedding of the NaN retry loop of
`GradientFromStartingPoints::FindMinima`
(`GradientFromStartingPoints.cpp`, lines 110-128):

```cpp
while(std::isnan(foundMinimum.FunctionValue())
      || std::isnan(foundMinimum.FunctionError()) )
{
  std::vector< double > scaledPoint( *realSolution );
  for( ... scaledField ... ) { *scaledField *= 0.8; }
  foundMinimum = (*gradientMinimizer)( scaledPoint );
}
```

The minimizer is an abstract function from a starting point to a result
whose only inspected properties are whether its function value and its
function error are NaN, modelled as explicit flags.
`retryLoopState k` is the value of `foundMinimum` after `k` tests of the
loop condition; note that `scaledPoint` is recomputed from the unchanged
`*realSolution` on every iteration. -/

structure MinimizerOutput where
  functionValueIsNaN : Bool
  functionErrorIsNaN : Bool
deriving DecidableEq

def hasNaNResult (foundMinimum : MinimizerOutput) : Bool :=
  foundMinimum.functionValueIsNaN || foundMinimum.functionErrorIsNaN

noncomputable def scaledStartingPoint (realSolution : List ℝ) : List ℝ :=
  realSolution.map (fun scaledField => scaledField * 0.8)

noncomputable def retryLoopState
    (gradientMinimizer : List ℝ → MinimizerOutput)
    (realSolution : List ℝ) : ℕ → MinimizerOutput
  | 0 => gradientMinimizer realSolution
  | k + 1 =>
    if hasNaNResult (retryLoopState gradientMinimizer realSolution k) then
      gradientMinimizer (scaledStartingPoint realSolution)
    else
      retryLoopState gradientMinimizer realSolution k

/-- The retry loop terminates when some iterate passes the loop test. -/
def retryLoopTerminates (gradientMinimizer : List ℝ → MinimizerOutput)
    (realSolution : List ℝ) : Prop :=
  ∃ k, hasNaNResult (retryLoopState gradientMinimizer realSolution k)
    = false

/-! Rotation matrix construction

Embedding of `NodesOnBisectingPlanes::UpdateRotationMatrix`
(`NodesOnBisectingPlanes.cpp`, lines 149-285).  The matrix is a function
of row and column index; entries outside the `numberOfFields` square are
irrelevant ghosts.  The writes of the C++ body are applied in program
order: first the whole first row is set to
`endNode.front() - startNode.back()`, then rows 1 and up of the
`referenceField` column receive the difference vector, then one
Gram-Schmidt-style column per `columnIndex` is written, and finally the
`referenceField` column is normalized.  The pre-existing contents of the
member matrix never survive into read entries, and are modelled as 0. -/

noncomputable def gramSchmidtStep (referenceField : ℕ)
    (matrixAndSum : (ℕ → ℕ → ℝ) × ℝ) (columnIndex : ℕ) :
    (ℕ → ℕ → ℝ) × ℝ :=
  let rotationMatrix := matrixAndSum.1
  let columnInsertionIndex :=
    if columnIndex ≥ referenceField then columnIndex + 1 else columnIndex
  let diagonalNumerator := rotationMatrix columnIndex referenceField
  let inverseNextDiagonal :=
    1 / rotationMatrix (columnIndex + 1) referenceField
  let sumOfElementSquares :=
    matrixAndSum.2 + diagonalNumerator * diagonalNumerator
  let inverseEuclideanLength :=
    1 / Real.sqrt (sumOfElementSquares
        * (1 + sumOfElementSquares * inverseNextDiagonal
            * inverseNextDiagonal))
  (fun rowIndex colIndex =>
    if colIndex = columnInsertionIndex then
      if 1 ≤ rowIndex ∧ rowIndex ≤ columnIndex then
        rotationMatrix rowIndex referenceField * inverseEuclideanLength
      else if rowIndex = columnIndex + 1 then
        (-sumOfElementSquares * inverseNextDiagonal)
          / inverseEuclideanLength
      else if columnIndex + 2 ≤ rowIndex then 0
      else rotationMatrix rowIndex colIndex
    else rotationMatrix rowIndex colIndex,
    sumOfElementSquares)

noncomputable def UpdateRotationMatrix (numberOfFields referenceField : ℕ)
    (startNode endNode : ℕ → ℝ) : ℕ → ℕ → ℝ :=
  let firstDifference := endNode 0 - startNode (numberOfFields - 1)
  let afterFirstRow : ℕ → ℕ → ℝ := fun rowIndex _colIndex =>
    if rowIndex = 0 then firstDifference else 0
  let afterReferenceColumn : ℕ → ℕ → ℝ := fun rowIndex colIndex =>
    if 1 ≤ rowIndex ∧ colIndex = referenceField then
      endNode rowIndex - startNode rowIndex
    else afterFirstRow rowIndex colIndex
  let folded := (List.range (numberOfFields - 1)).foldl
    (gramSchmidtStep referenceField) (afterReferenceColumn, 0)
  let lastDiagonal := folded.1 (numberOfFields - 1) referenceField
  let finalSumOfElementSquares := folded.2 + lastDiagonal * lastDiagonal
  let inverseEuclideanLength := 1 / Real.sqrt finalSumOfElementSquares
  fun rowIndex colIndex =>
    if colIndex = referenceField then
      folded.1 rowIndex colIndex * inverseEuclideanLength
    else folded.1 rowIndex colIndex

lemma nodeCountLoop_spec (requested : ℕ) (current : ℕ) (splits : ℕ)
    (hc : 0 < current) :
    (∃ m, (nodeCountLoop requested current splits hc).1 = current * 2 ^ m ∧
          (nodeCountLoop requested current splits hc).2 = splits + m ∧
          (∀ i < m, current * 2 ^ i ≤ requested)) ∧
    requested < (nodeCountLoop requested current splits hc).1 := by
  induction current, splits, hc using nodeCountLoop.induct requested with
  | case1 current splits hc hle ih =>
    rw [nodeCountLoop, if_pos hle]
    obtain ⟨⟨m, h1, h2, h3⟩, h4⟩ := ih
    refine ⟨⟨m + 1, ?_, ?_, ?_⟩, h4⟩
    · rw [h1]; ring
    · rw [h2]; ring
    · intro i hi
      cases i with
      | zero => simpa using hle
      | succ i' =>
        have := h3 i' (by omega)
        calc current * 2 ^ (i' + 1) = 2 * current * 2 ^ i' := by ring
        _ ≤ requested := this
  | case2 current splits hc hle =>
    rw [nodeCountLoop, if_neg hle]
    exact ⟨⟨0, by simp, by simp, by omega⟩, by omega⟩

lemma pow_numberOfSplits (requested : ℕ) :
    (nodeCountLoop requested 1 0 one_pos).1 = 2 ^ numberOfSplits requested := by
  obtain ⟨⟨m, h1, h2, _⟩, _⟩ := nodeCountLoop_spec requested 1 0 one_pos
  rw [numberOfSplits, h2, h1]
  simp

lemma requested_lt_pow_numberOfSplits (requested : ℕ) :
    requested < 2 ^ numberOfSplits requested := by
  have h := (nodeCountLoop_spec requested 1 0 one_pos).2
  rwa [pow_numberOfSplits] at h

lemma pow_le_requested_of_lt_numberOfSplits (requested : ℕ) :
    ∀ i < numberOfSplits requested, 2 ^ i ≤ requested := by
  obtain ⟨⟨m, h1, h2, h3⟩, _⟩ := nodeCountLoop_spec requested 1 0 one_pos
  intro i hi
  rw [numberOfSplits, h2] at hi
  simpa using h3 i (by omega)

lemma numberOfIntermediateNodes_eq_pow_sub_one (requested : ℕ) :
    numberOfIntermediateNodes requested = 2 ^ numberOfSplits requested - 1 := by
  rw [numberOfIntermediateNodes, pow_numberOfSplits]

lemma numberOfSplits_eq_of_bounds (requested k : ℕ)
    (h1 : requested < 2 ^ k) (h2 : ∀ i < k, 2 ^ i ≤ requested) :
    numberOfSplits requested = k := by
  by_contra hne
  rcases Nat.lt_or_ge (numberOfSplits requested) k with hlt | hge
  · exact absurd (h2 _ hlt)
      (by simpa using Nat.not_le.mpr (requested_lt_pow_numberOfSplits requested))
  · have hk : k < numberOfSplits requested := by omega
    exact absurd (pow_le_requested_of_lt_numberOfSplits requested k hk)
      (Nat.not_le.mpr h1)

lemma numberOfIntermediateNodes_eq_of (requested k : ℕ)
    (h1 : requested < 2 ^ k) (h2 : ∀ i < k, 2 ^ i ≤ requested) :
    numberOfIntermediateNodes requested = 2 ^ k - 1 := by
  rw [numberOfIntermediateNodes_eq_pow_sub_one,
    numberOfSplits_eq_of_bounds requested k h1 h2]

/-- C4: for every requested minimum interior node count `n ≥ 1`, the
`NodesOnBisectingPlanes` constructor sets the actual number of
intermediate nodes to exactly the smallest `N = 2^k - 1` with `N ≥ n`;
in particular for `n` in `{1,2,3,4,5,8,9,16}` it produces
`1, 3, 3, 7, 7, 15, 15, 31` respectively. -/
theorem nodeCount_smallest_power_of_two_minus_one (requested : ℕ)
    (hrequested : 1 ≤ requested) :
    requested ≤ numberOfIntermediateNodes requested ∧
    (∃ k, numberOfIntermediateNodes requested = 2 ^ k - 1 ∧
      ∀ j, requested ≤ 2 ^ j - 1 →
        numberOfIntermediateNodes requested ≤ 2 ^ j - 1) ∧
    numberOfIntermediateNodes 1 = 1 ∧ numberOfIntermediateNodes 2 = 3 ∧
    numberOfIntermediateNodes 3 = 3 ∧ numberOfIntermediateNodes 4 = 7 ∧
    numberOfIntermediateNodes 5 = 7 ∧ numberOfIntermediateNodes 8 = 15 ∧
    numberOfIntermediateNodes 9 = 15 ∧
    numberOfIntermediateNodes 16 = 31 := by
  have hN := numberOfIntermediateNodes_eq_pow_sub_one requested
  have hlt := requested_lt_pow_numberOfSplits requested
  refine ⟨by omega, ⟨numberOfSplits requested, hN, ?_⟩, ?_, ?_, ?_, ?_, ?_,
    ?_, ?_, ?_⟩
  · intro j hj
    have hjpos : (1 : ℕ) ≤ 2 ^ j := Nat.one_le_two_pow
    have hreqlt : requested < 2 ^ j := by omega
    have hmlej : numberOfSplits requested ≤ j := by
      by_contra hcon
      exact absurd (pow_le_requested_of_lt_numberOfSplits requested j
        (by omega)) (Nat.not_le.mpr hreqlt)
    have := Nat.pow_le_pow_right (by norm_num : 1 ≤ 2) hmlej
    omega
  · rw [numberOfIntermediateNodes_eq_of 1 1 (by norm_num) (by decide)]; norm_num
  · rw [numberOfIntermediateNodes_eq_of 2 2 (by norm_num) (by decide)]; norm_num
  · rw [numberOfIntermediateNodes_eq_of 3 2 (by norm_num) (by decide)]; norm_num
  · rw [numberOfIntermediateNodes_eq_of 4 3 (by norm_num) (by decide)]; norm_num
  · rw [numberOfIntermediateNodes_eq_of 5 3 (by norm_num) (by decide)]; norm_num
  · rw [numberOfIntermediateNodes_eq_of 8 4 (by norm_num) (by decide)]; norm_num
  · rw [numberOfIntermediateNodes_eq_of 9 4 (by norm_num) (by decide)]; norm_num
  · rw [numberOfIntermediateNodes_eq_of 16 5 (by norm_num) (by decide)]; norm_num

/-- Witness for C4 at the concrete requested count 2. -/
theorem nodeCount_smallest_power_of_two_minus_one_witness :
    1 ≤ 2 ∧ 2 ≤ numberOfIntermediateNodes 2 :=
  ⟨by norm_num,
    (nodeCount_smallest_power_of_two_minus_one 2 (by norm_num)).1⟩

/-- C6 counterexample: with requested count 0 the constructor raises no
error at all (the embedded construction is total, mirroring the source,
which contains no throw): it produces two path nodes, zero intermediate
nodes, and an empty adjustment plan, rather than failing. -/
theorem nodeCount_zero_request_no_error :
    numberOfIntermediateNodes 0 = 0 ∧
    nodesOnBisectingPlanesPlan 0 = [] := by
  have h0 : nodeCountLoop 0 1 0 one_pos = (1, 0) := by
    rw [nodeCountLoop]; norm_num
  constructor
  · rw [numberOfIntermediateNodes, h0]; norm_num
  · rw [nodesOnBisectingPlanesPlan, numberOfSplits, h0]
    rfl


/-- C6 amended: when the requested minimum number of interior nodes is
0, the node-ordering construction succeeds without any error, producing
zero intermediate nodes (so `pathNodes` holds just the two endpoint
vacua), zero splits, and an empty adjustment order. -/
theorem nodeCount_zero_request_produces_empty_plan :
    numberOfSplits 0 = 0 ∧ numberOfIntermediateNodes 0 = 0 ∧
    numberOfIntermediateNodes 0 + 2 = 2 ∧
    nodesOnBisectingPlanesPlan 0 = [] := by
  have h0 : nodeCountLoop 0 1 0 one_pos = (1, 0) := by
    rw [nodeCountLoop]; norm_num
  refine ⟨?_, ?_, ?_, ?_⟩
  · rw [numberOfSplits, h0]
  · rw [numberOfIntermediateNodes, h0]; norm_num
  · rw [numberOfIntermediateNodes, h0]; norm_num
  · rw [nodesOnBisectingPlanesPlan, numberOfSplits, h0]
    rfl


lemma validOrder_mono (plan : List (ℕ × ℕ × ℕ)) :
    ∀ (available available2 : Set ℕ), available ⊆ available2 →
      validOrder available plan → validOrder available2 plan := by
  induction plan with
  | nil => intro _ _ _ _; trivial
  | cons entry rest ih =>
    intro available available2 hsub hvalid
    obtain ⟨h1, h2, h3⟩ := hvalid
    exact ⟨hsub h1, hsub h2,
      ih _ _ (Set.insert_subset_insert hsub) h3⟩

lemma validOrder_of_forall_mem (plan : List (ℕ × ℕ × ℕ)) :
    ∀ (available : Set ℕ),
      (∀ entry ∈ plan,
        entry.2.1 ∈ available ∧ entry.2.2 ∈ available) →
      validOrder available plan := by
  induction plan with
  | nil => intro _ _; trivial
  | cons entry rest ih =>
    intro available hmem
    refine ⟨(hmem entry (by simp)).1, (hmem entry (by simp)).2, ?_⟩
    refine ih _ (fun e he => ?_)
    have := hmem e (by simp [he])
    exact ⟨Set.mem_insert_iff.mpr (Or.inr this.1),
      Set.mem_insert_iff.mpr (Or.inr this.2)⟩

lemma scheduleInserts_nil (available : Set ℕ) :
    scheduleInserts available [] = available := rfl

lemma scheduleInserts_cons (available : Set ℕ) (entry : ℕ × ℕ × ℕ)
    (rest : List (ℕ × ℕ × ℕ)) :
    scheduleInserts available (entry :: rest)
      = scheduleInserts (insert entry.1 available) rest := rfl

lemma subset_scheduleInserts (plan : List (ℕ × ℕ × ℕ)) :
    ∀ available : Set ℕ, available ⊆ scheduleInserts available plan := by
  induction plan with
  | nil => intro _; exact subset_rfl
  | cons entry rest ih =>
    intro available
    rw [scheduleInserts_cons]
    exact (Set.subset_insert _ _).trans (ih _)

lemma mem_scheduleInserts_of_mem (plan : List (ℕ × ℕ × ℕ)) :
    ∀ (available : Set ℕ) (entry : ℕ × ℕ × ℕ), entry ∈ plan →
      entry.1 ∈ scheduleInserts available plan := by
  induction plan with
  | nil => intro _ _ h; exact absurd h (List.not_mem_nil _)
  | cons head rest ih =>
    intro available entry hmem
    rw [scheduleInserts_cons]
    rcases List.mem_cons.mp hmem with heq | htail
    · subst heq
      exact subset_scheduleInserts rest _ (Set.mem_insert _ _)
    · exact ih _ _ htail

lemma validOrder_append (l1 l2 : List (ℕ × ℕ × ℕ)) :
    ∀ available : Set ℕ, validOrder available l1 →
      validOrder (scheduleInserts available l1) l2 →
      validOrder available (l1 ++ l2) := by
  induction l1 with
  | nil => intro available _ h2; simpa [scheduleInserts_nil] using h2
  | cons entry rest ih =>
    intro available h1 h2
    obtain ⟨ha, hb, hc⟩ := h1
    rw [scheduleInserts_cons] at h2
    exact ⟨ha, hb, ih _ hc h2⟩

lemma buildAdjustmentPlan_valid (splitsLeft : ℕ) :
    ∀ (newSegmentsInSplit : ℕ) (available : Set ℕ),
      (∀ m ≤ newSegmentsInSplit, (2 ^ splitsLeft * m) ∈ available) →
      validOrder available
        (buildAdjustmentPlan splitsLeft (2 ^ splitsLeft)
          newSegmentsInSplit) := by
  induction splitsLeft with
  | zero =>
    intro newSegmentsInSplit available _
    rw [buildAdjustmentPlan]
    trivial
  | succ s ih =>
    intro newSegmentsInSplit available hav
    rw [buildAdjustmentPlan]
    have hseg : 2 ^ (s + 1) / 2 = 2 ^ s := by
      rw [pow_succ]
      exact Nat.mul_div_cancel _ two_pos
    rw [hseg]
    have hleft : 2 ^ s * (1 + 2 * 0) ≤ 2 ^ s * (1 + 2 * 1) := by
      exact Nat.mul_le_mul_left _ (by omega)
    have hindex : ∀ w : ℕ, 2 ^ s * (1 + 2 * w) - 2 ^ s = 2 ^ (s + 1) * w
        ∧ 2 ^ s * (1 + 2 * w) + 2 ^ s = 2 ^ (s + 1) * (w + 1) := by
      intro w
      constructor
      · have : 2 ^ s * (1 + 2 * w) = 2 ^ s + 2 ^ (s + 1) * w := by
          rw [pow_succ]; ring
        rw [this, Nat.add_sub_cancel_left]
      · rw [pow_succ]; ring
    apply validOrder_append
    · refine validOrder_of_forall_mem _ _ (fun entry hentry => ?_)
      rw [List.mem_map] at hentry
      obtain ⟨whichSegment, hw, hentryEq⟩ := hentry
      rw [List.mem_range] at hw
      subst hentryEq
      constructor
      · show 2 ^ s * (1 + 2 * whichSegment) - 2 ^ s ∈ available
        rw [(hindex whichSegment).1]
        exact hav whichSegment (by omega)
      · show 2 ^ s * (1 + 2 * whichSegment) + 2 ^ s ∈ available
        rw [(hindex whichSegment).2]
        exact hav (whichSegment + 1) (by omega)
    · refine ih (2 * newSegmentsInSplit) _ (fun m hm => ?_)
      rcases Nat.even_or_odd m with heven | hodd
      · obtain ⟨half, hhalf⟩ := heven
        refine subset_scheduleInserts _ _ ?_
        have : 2 ^ s * m = 2 ^ (s + 1) * half := by
          rw [hhalf, pow_succ]; ring
        rw [this]
        exact hav half (by omega)
      · obtain ⟨w, hw⟩ := hodd
        have hwlt : w < newSegmentsInSplit := by omega
        have hval : 2 ^ s * m = 2 ^ s * (1 + 2 * w) := by
          rw [hw]; ring
        rw [hval]
        refine mem_scheduleInserts_of_mem _ _
          (2 ^ s * (1 + 2 * w), 2 ^ s * (1 + 2 * w) - 2 ^ s,
            2 ^ s * (1 + 2 * w) + 2 ^ s) ?_
        rw [List.mem_map]
        exact ⟨w, List.mem_range.mpr hwlt, rfl⟩

/-- C5: in every produced node-ordering plan, each scheduled index
records as its side-neighbor pair only indices that are endpoints
(0 or `numberOfIntermediateNodes + 1`) or interior indices scheduled
strictly earlier in the adjustment order. -/
theorem adjustmentOrder_neighbors_already_placed (requested : ℕ) :
    validOrder {0, numberOfIntermediateNodes requested + 1}
      (nodesOnBisectingPlanesPlan requested) := by
  have hpow := pow_numberOfSplits requested
  have hpos : 1 ≤ (nodeCountLoop requested 1 0 one_pos).1 := by
    rw [hpow]
    exact Nat.one_le_two_pow
  have hsize : numberOfIntermediateNodes requested + 2 - 1
      = 2 ^ numberOfSplits requested := by
    rw [numberOfIntermediateNodes, ← hpow]
    omega
  rw [nodesOnBisectingPlanesPlan, hsize]
  refine buildAdjustmentPlan_valid _ _ _ (fun m hm => ?_)
  interval_cases m
  · exact Set.mem_insert_iff.mpr (Or.inl (by ring))
  · refine Set.mem_insert_iff.mpr (Or.inr ?_)
    have : 2 ^ numberOfSplits requested
        = numberOfIntermediateNodes requested + 1 := by
      rw [numberOfIntermediateNodes, ← hpow]
      omega
    simp [this]

/-- C1: for every potential function and every pair of minima,
`CalculateTunneling` throws the fatal configuration error whenever the
potential at the claimed true vacuum is not strictly lower than at the
claimed false vacuum, and in that case no tunneling calculation is
performed: the member state is returned untouched no matter what the
quantum and thermal sub-calculations would do. -/
theorem calculateTunneling_not_deeper_throws
    (tunnelingStrategy : TunnelingStrategy)
    (survivalProbabilityThreshold : ℝ)
    (potentialFunction : List ℝ → ℝ)
    (falseVacuumConfiguration trueVacuumConfiguration : List ℝ)
    (calculateQuantumTunneling : TunnelingState → TunnelingState)
    (calculateThermalTunneling : TunnelingState → TunnelingState)
    (state : TunnelingState)
    (hnotDeeper : ¬ (potentialFunction trueVacuumConfiguration
      < potentialFunction falseVacuumConfiguration)) :
    (CalculateTunneling tunnelingStrategy survivalProbabilityThreshold
        potentialFunction falseVacuumConfiguration
        trueVacuumConfiguration calculateQuantumTunneling
        calculateThermalTunneling state).thrownError
      = some "the given deeper vacuum was not actually deeper, so tunneling is impossible." ∧
    (CalculateTunneling tunnelingStrategy survivalProbabilityThreshold
        potentialFunction falseVacuumConfiguration
        trueVacuumConfiguration calculateQuantumTunneling
        calculateThermalTunneling state).finalState = state := by
  rw [CalculateTunneling, if_pos hnotDeeper]
  exact ⟨rfl, rfl⟩

/-- Witness for C1 at a concrete equal-depth pair of vacua. -/
theorem calculateTunneling_not_deeper_throws_witness :
    (¬ ((fun _ : List ℝ => (0 : ℝ)) [(1 : ℝ)]
      < (fun _ : List ℝ => (0 : ℝ)) [])) ∧
    (CalculateTunneling TunnelingStrategy.JustQuantum 0
        (fun _ => 0) [] [(1 : ℝ)] id id
        ⟨0, 0, 0, 0, 0, 0, 0⟩).finalState = ⟨0, 0, 0, 0, 0, 0, 0⟩ :=
  ⟨by norm_num,
    (calculateTunneling_not_deeper_throws TunnelingStrategy.JustQuantum 0
      (fun _ => 0) [] [(1 : ℝ)] id id ⟨0, 0, 0, 0, 0, 0, 0⟩
      (by norm_num)).2⟩

/-- C10: if `CalculateTunneling` raises the fatal not-deeper
configuration error, the five stored result fields are left unchanged
from their values before the call; the reset to the negative
not-computed sentinels happens only after the direction check passes. -/
theorem calculateTunneling_throw_preserves_results
    (tunnelingStrategy : TunnelingStrategy)
    (survivalProbabilityThreshold : ℝ)
    (potentialFunction : List ℝ → ℝ)
    (falseVacuumConfiguration trueVacuumConfiguration : List ℝ)
    (calculateQuantumTunneling : TunnelingState → TunnelingState)
    (calculateThermalTunneling : TunnelingState → TunnelingState)
    (state : TunnelingState)
    (hnotDeeper : ¬ (potentialFunction trueVacuumConfiguration
      < potentialFunction falseVacuumConfiguration)) :
    ((CalculateTunneling tunnelingStrategy survivalProbabilityThreshold
        potentialFunction falseVacuumConfiguration
        trueVacuumConfiguration calculateQuantumTunneling
        calculateThermalTunneling state).thrownError).isSome = true ∧
    (CalculateTunneling tunnelingStrategy survivalProbabilityThreshold
        potentialFunction falseVacuumConfiguration
        trueVacuumConfiguration calculateQuantumTunneling
        calculateThermalTunneling
        state).finalState.quantumSurvivalProbability
      = state.quantumSurvivalProbability ∧
    (CalculateTunneling tunnelingStrategy survivalProbabilityThreshold
        potentialFunction falseVacuumConfiguration
        trueVacuumConfiguration calculateQuantumTunneling
        calculateThermalTunneling
        state).finalState.quantumLifetimeInSeconds
      = state.quantumLifetimeInSeconds ∧
    (CalculateTunneling tunnelingStrategy survivalProbabilityThreshold
        potentialFunction falseVacuumConfiguration
        trueVacuumConfiguration calculateQuantumTunneling
        calculateThermalTunneling
        state).finalState.thermalSurvivalProbability
      = state.thermalSurvivalProbability ∧
    (CalculateTunneling tunnelingStrategy survivalProbabilityThreshold
        potentialFunction falseVacuumConfiguration
        trueVacuumConfiguration calculateQuantumTunneling
        calculateThermalTunneling
        state).finalState.partialThermalDecayWidth
      = state.partialThermalDecayWidth ∧
    (CalculateTunneling tunnelingStrategy survivalProbabilityThreshold
        potentialFunction falseVacuumConfiguration
        trueVacuumConfiguration calculateQuantumTunneling
        calculateThermalTunneling
        state).finalState.dominantTemperatureInGigaElectronVolts
      = state.dominantTemperatureInGigaElectronVolts := by
  rw [CalculateTunneling, if_pos hnotDeeper]
  exact ⟨rfl, rfl, rfl, rfl, rfl, rfl⟩

/-- Witness for C10 at a concrete state with distinct field values. -/
theorem calculateTunneling_throw_preserves_results_witness :
    (¬ ((fun _ : List ℝ => (1 : ℝ)) [(2 : ℝ)]
      < (fun _ : List ℝ => (1 : ℝ)) [])) ∧
    (CalculateTunneling TunnelingStrategy.ThermalThenQuantum 0
        (fun _ => 1) [] [(2 : ℝ)] id id
        ⟨3, 4, 5, 6, 7, 8, 9⟩).finalState.thermalSurvivalProbability
      = (5 : ℝ) :=
  ⟨by norm_num,
    (calculateTunneling_throw_preserves_results
      TunnelingStrategy.ThermalThenQuantum 0 (fun _ => 1) [] [(2 : ℝ)]
      id id ⟨3, 4, 5, 6, 7, 8, 9⟩ (by norm_num)).2.2.2.1⟩

/-- C7: under `QuantumThenThermal`, the thermal calculation runs exactly
when the quantum survival probability just computed exceeds the
configured threshold; under `ThermalThenQuantum`, the quantum
calculation runs exactly when the thermal survival probability exceeds
the threshold.  Non-execution is expressed by the final state being
exactly the output of the first calculation, uniformly in the other
(universally quantified) calculation. -/
theorem strategy_conditional_second_calculation
    (survivalProbabilityThreshold : ℝ)
    (potentialFunction : List ℝ → ℝ)
    (falseVacuumConfiguration trueVacuumConfiguration : List ℝ)
    (calculateQuantumTunneling : TunnelingState → TunnelingState)
    (calculateThermalTunneling : TunnelingState → TunnelingState)
    (state : TunnelingState)
    (hdeeper : potentialFunction trueVacuumConfiguration
      < potentialFunction falseVacuumConfiguration) :
    ((calculateQuantumTunneling
          (resetNotCalculated state)).quantumSurvivalProbability
        > survivalProbabilityThreshold →
      (CalculateTunneling TunnelingStrategy.QuantumThenThermal
          survivalProbabilityThreshold potentialFunction
          falseVacuumConfiguration trueVacuumConfiguration
          calculateQuantumTunneling calculateThermalTunneling
          state).finalState
        = calculateThermalTunneling
            (calculateQuantumTunneling (resetNotCalculated state))) ∧
    (¬ ((calculateQuantumTunneling
          (resetNotCalculated state)).quantumSurvivalProbability
        > survivalProbabilityThreshold) →
      (CalculateTunneling TunnelingStrategy.QuantumThenThermal
          survivalProbabilityThreshold potentialFunction
          falseVacuumConfiguration trueVacuumConfiguration
          calculateQuantumTunneling calculateThermalTunneling
          state).finalState
        = calculateQuantumTunneling (resetNotCalculated state)) ∧
    ((calculateThermalTunneling
          (resetNotCalculated state)).thermalSurvivalProbability
        > survivalProbabilityThreshold →
      (CalculateTunneling TunnelingStrategy.ThermalThenQuantum
          survivalProbabilityThreshold potentialFunction
          falseVacuumConfiguration trueVacuumConfiguration
          calculateQuantumTunneling calculateThermalTunneling
          state).finalState
        = calculateQuantumTunneling
            (calculateThermalTunneling (resetNotCalculated state))) ∧
    (¬ ((calculateThermalTunneling
          (resetNotCalculated state)).thermalSurvivalProbability
        > survivalProbabilityThreshold) →
      (CalculateTunneling TunnelingStrategy.ThermalThenQuantum
          survivalProbabilityThreshold potentialFunction
          falseVacuumConfiguration trueVacuumConfiguration
          calculateQuantumTunneling calculateThermalTunneling
          state).finalState
        = calculateThermalTunneling (resetNotCalculated state)) := by
  refine ⟨fun hgt => ?_, fun hng => ?_, fun hgt => ?_, fun hng => ?_⟩
  · rw [CalculateTunneling, if_neg (not_not_intro hdeeper)]
    simp only [if_pos hgt]
  · rw [CalculateTunneling, if_neg (not_not_intro hdeeper)]
    simp only [if_neg hng]
  · rw [CalculateTunneling, if_neg (not_not_intro hdeeper)]
    simp only [if_pos hgt]
  · rw [CalculateTunneling, if_neg (not_not_intro hdeeper)]
    simp only [if_neg hng]

/-- Witness for C7: with identity sub-calculations, probabilities rest
at the sentinel -1, which does not exceed the threshold 0, so the
second calculation is skipped. -/
theorem strategy_conditional_second_calculation_witness :
    ((fun l : List ℝ => -(l.length : ℝ)) [(0 : ℝ)]
      < (fun l : List ℝ => -(l.length : ℝ)) []) ∧
    (CalculateTunneling TunnelingStrategy.QuantumThenThermal 0
        (fun l => -(l.length : ℝ)) [] [(0 : ℝ)] id id
        ⟨0, 0, 0, 0, 0, 0, 0⟩).finalState
      = resetNotCalculated ⟨0, 0, 0, 0, 0, 0, 0⟩ :=
  ⟨by norm_num,
    (strategy_conditional_second_calculation 0
      (fun l => -(l.length : ℝ)) [] [(0 : ℝ)] id id
      ⟨0, 0, 0, 0, 0, 0, 0⟩ (by norm_num)).2.1
      (by norm_num [resetNotCalculated])⟩

lemma maximumPowerOfNaturalExponent_pos :
    0 < maximumPowerOfNaturalExponent := by
  rw [maximumPowerOfNaturalExponent, doubleMaximumValue]
  apply Real.log_pos
  norm_num

/-- C2: for every action value fed to the quantum probability
calculation, if the action is at or above the safe exponentiation bound
(the log of half the maximum double) the survival probability is set to
exactly 1 and the lifetime to the sentinel 1.0E+100; if it is at or
below the negative of the bound the probability is set to exactly 0; in
both regimes a warning is emitted (the warning list is nonempty) and,
the embedding being a total function into exact constants, no error is
raised and no NaN is produced.  The analogous saturation holds on the
thermal path as a function of `logOfMinusLogOfThermalProbability`. -/
theorem quantumTunneling_saturation (quantumAction : ℝ)
    (scaleSquaredRelevantToTunneling : ℝ)
    (state thermalState : TunnelingState) :
    (quantumAction ≥ maximumPowerOfNaturalExponent →
      (CalculateQuantumTunneling quantumAction
          scaleSquaredRelevantToTunneling
          state).1.quantumSurvivalProbability = 1 ∧
      (CalculateQuantumTunneling quantumAction
          scaleSquaredRelevantToTunneling
          state).1.quantumLifetimeInSeconds = 1.0e100 ∧
      (CalculateQuantumTunneling quantumAction
          scaleSquaredRelevantToTunneling state).2 ≠ []) ∧
    (quantumAction ≤ -maximumPowerOfNaturalExponent →
      (CalculateQuantumTunneling quantumAction
          scaleSquaredRelevantToTunneling
          state).1.quantumSurvivalProbability = 0 ∧
      (CalculateQuantumTunneling quantumAction
          scaleSquaredRelevantToTunneling state).2 ≠ []) ∧
    (thermalState.logOfMinusLogOfThermalProbability
        ≥ maximumPowerOfNaturalExponent →
      (SetThermalSurvivalProbability
          thermalState).1.thermalSurvivalProbability = 0 ∧
      (SetThermalSurvivalProbability thermalState).2 ≠ []) ∧
    (thermalState.logOfMinusLogOfThermalProbability
        ≤ -maximumPowerOfNaturalExponent →
      (SetThermalSurvivalProbability
          thermalState).1.thermalSurvivalProbability = 1 ∧
      (SetThermalSurvivalProbability thermalState).2 ≠ []) := by
  have hMpos := maximumPowerOfNaturalExponent_pos
  refine ⟨fun hbig => ?_, fun hsmall => ?_, fun hbig => ?_,
    fun hsmall => ?_⟩
  · rw [CalculateQuantumTunneling]
    simp only [if_pos hbig]
    simp
  · have hnotbig : ¬ (quantumAction ≥ maximumPowerOfNaturalExponent) := by
      simp only [ge_iff_le, not_le]
      linarith
    rw [CalculateQuantumTunneling]
    simp only [if_neg hnotbig, if_pos hsmall]
    simp
  · rw [SetThermalSurvivalProbability]
    simp only [if_pos hbig]
    simp
  · have hnotbig : ¬ (thermalState.logOfMinusLogOfThermalProbability
        ≥ maximumPowerOfNaturalExponent) := by
      simp only [ge_iff_le, not_le]
      linarith
    rw [SetThermalSurvivalProbability]
    simp only [if_neg hnotbig, if_pos hsmall]
    simp

/-- Witness for C2 exactly at the saturation bounds. -/
theorem quantumTunneling_saturation_witness :
    (CalculateQuantumTunneling maximumPowerOfNaturalExponent 1
        ⟨0, 0, 0, 0, 0, 0, 0⟩).1.quantumSurvivalProbability = 1 ∧
    (CalculateQuantumTunneling (-maximumPowerOfNaturalExponent) 1
        ⟨0, 0, 0, 0, 0, 0, 0⟩).1.quantumSurvivalProbability = 0 ∧
    (SetThermalSurvivalProbability
        ⟨0, 0, 0, 0, 0, 0, maximumPowerOfNaturalExponent⟩
      ).1.thermalSurvivalProbability = 0 ∧
    (SetThermalSurvivalProbability
        ⟨0, 0, 0, 0, 0, 0, -maximumPowerOfNaturalExponent⟩
      ).1.thermalSurvivalProbability = 1 :=
  ⟨((quantumTunneling_saturation maximumPowerOfNaturalExponent 1
      ⟨0, 0, 0, 0, 0, 0, 0⟩ ⟨0, 0, 0, 0, 0, 0, 0⟩).1 (le_refl _)).1,
    ((quantumTunneling_saturation (-maximumPowerOfNaturalExponent) 1
      ⟨0, 0, 0, 0, 0, 0, 0⟩ ⟨0, 0, 0, 0, 0, 0, 0⟩).2.1 (le_refl _)).1,
    ((quantumTunneling_saturation 0 1 ⟨0, 0, 0, 0, 0, 0, 0⟩
      ⟨0, 0, 0, 0, 0, 0, maximumPowerOfNaturalExponent⟩).2.2.1
      (le_refl _)).1,
    ((quantumTunneling_saturation 0 1 ⟨0, 0, 0, 0, 0, 0, 0⟩
      ⟨0, 0, 0, 0, 0, 0, -maximumPowerOfNaturalExponent⟩).2.2.2
      (le_refl _)).1⟩

/-- C9 counterexample: with a deterministic minimizer returning a NaN
function value at every starting point (as the loop condition checks),
the retry loop of `FindMinima` never terminates: every iterate still
fails the NaN test, because each retry re-minimizes from the same
0.8-scaled copy of the unchanged starting point. -/
theorem retryLoop_can_run_forever :
    ¬ retryLoopTerminates (fun _ => ⟨true, true⟩) [(1 : ℝ)] := by
  intro hterm
  obtain ⟨k, hk⟩ := hterm
  have hstate : ∀ j,
      retryLoopState (fun _ => ⟨true, true⟩) [(1 : ℝ)] j
        = ⟨true, true⟩ := by
    intro j
    induction j with
    | zero => rfl
    | succ j ihj =>
      rw [retryLoopState, ihj]
      simp [hasNaNResult]
  rw [hstate k] at hk
  simp [hasNaNResult] at hk

/-- C9 amended: the retry loop of `FindMinima` terminates if and only
if the minimizer returns NaN-free function value and error either at
the original starting point or at the single fixed 0.8-scaled copy of
it (the scaled point is recomputed identically on every retry); in
particular a bounded retry count is not guaranteed for minimizers that
return NaN at both points. -/
theorem retryLoop_terminates_iff
    (gradientMinimizer : List ℝ → MinimizerOutput)
    (realSolution : List ℝ) :
    retryLoopTerminates gradientMinimizer realSolution ↔
      (hasNaNResult (gradientMinimizer realSolution) = false ∨
       hasNaNResult
         (gradientMinimizer (scaledStartingPoint realSolution))
           = false) := by
  constructor
  · rintro ⟨k, hk⟩
    have hmem : ∀ j,
        retryLoopState gradientMinimizer realSolution j
            = gradientMinimizer realSolution ∨
        retryLoopState gradientMinimizer realSolution j
            = gradientMinimizer (scaledStartingPoint realSolution) := by
      intro j
      induction j with
      | zero => exact Or.inl rfl
      | succ j ihj =>
        rw [retryLoopState]
        by_cases hnan : hasNaNResult
            (retryLoopState gradientMinimizer realSolution j) = true
        · rw [if_pos hnan]
          exact Or.inr rfl
        · rw [if_neg hnan]
          exact ihj
    rcases hmem k with h | h <;> rw [h] at hk
    · exact Or.inl hk
    · exact Or.inr hk
  · intro h
    rcases h with h | h
    · exact ⟨0, h⟩
    · refine ⟨1, ?_⟩
      rw [retryLoopState]
      by_cases hnan : hasNaNResult
          (retryLoopState gradientMinimizer realSolution 0) = true
      · rw [if_pos hnan]
        exact h
      · rw [if_neg hnan]
        simpa using hnan

lemma narrowingStep_invariant (belowCriticalTemperature : ℝ → Bool)
    (range : ℝ × ℝ) (hpos : 0 < range.1) (hle : range.1 ≤ range.2)
    (hlow : belowCriticalTemperature range.1 = true)
    (hhigh : belowCriticalTemperature range.2 = false) :
    0 < (narrowingStep belowCriticalTemperature range).1 ∧
    (narrowingStep belowCriticalTemperature range).1
      ≤ (narrowingStep belowCriticalTemperature range).2 ∧
    belowCriticalTemperature
      (narrowingStep belowCriticalTemperature range).1 = true ∧
    belowCriticalTemperature
      (narrowingStep belowCriticalTemperature range).2 = false ∧
    (narrowingStep belowCriticalTemperature range).2
        / (narrowingStep belowCriticalTemperature range).1
      = Real.sqrt (range.2 / range.1) := by
  have hpos2 : 0 < range.2 := lt_of_lt_of_le hpos hle
  have hgpos : 0 < Real.sqrt (range.1 * range.2) :=
    Real.sqrt_pos.mpr (mul_pos hpos hpos2)
  have hlowg : range.1 ≤ Real.sqrt (range.1 * range.2) := by
    have h1 : range.1 = Real.sqrt (range.1 * range.1) :=
      (Real.sqrt_mul_self hpos.le).symm
    rw [h1]
    exact Real.sqrt_le_sqrt (by nlinarith)
  have hghigh : Real.sqrt (range.1 * range.2) ≤ range.2 := by
    have h2 : range.2 = Real.sqrt (range.2 * range.2) :=
      (Real.sqrt_mul_self hpos2.le).symm
    nth_rewrite 2 [h2]
    exact Real.sqrt_le_sqrt (by nlinarith)
  have hdivpos : (0 : ℝ) ≤ range.2 / range.1 :=
    div_nonneg hpos2.le hpos.le
  have hsr1 : Real.sqrt range.1 * Real.sqrt range.1 = range.1 :=
    Real.mul_self_sqrt hpos.le
  have hsr2 : Real.sqrt range.2 * Real.sqrt range.2 = range.2 :=
    Real.mul_self_sqrt hpos2.le
  have hne1 : Real.sqrt range.1 ≠ 0 :=
    ne_of_gt (Real.sqrt_pos.mpr hpos)
  have hne2 : Real.sqrt range.2 ≠ 0 :=
    ne_of_gt (Real.sqrt_pos.mpr hpos2)
  have hsplit : Real.sqrt (range.1 * range.2)
      = Real.sqrt range.1 * Real.sqrt range.2 :=
    Real.sqrt_mul hpos.le _
  have hsplitdiv : Real.sqrt (range.2 / range.1)
      = Real.sqrt range.2 / Real.sqrt range.1 :=
    Real.sqrt_div hpos2.le _
  rw [narrowingStep]
  by_cases hguess :
      belowCriticalTemperature (Real.sqrt (range.1 * range.2)) = true
  · rw [if_pos hguess]
    refine ⟨hgpos, hghigh, hguess, hhigh, ?_⟩
    show range.2 / Real.sqrt (range.1 * range.2)
      = Real.sqrt (range.2 / range.1)
    rw [hsplit, hsplitdiv]
    field_simp
    linear_combination (-(Real.sqrt range.1)) * hsr2
  · rw [if_neg hguess]
    refine ⟨hpos, hlowg, hlow, ?_, ?_⟩
    · simpa using hguess
    · show Real.sqrt (range.1 * range.2) / range.1
        = Real.sqrt (range.2 / range.1)
      rw [hsplit, hsplitdiv]
      field_simp
      linear_combination Real.sqrt range.2 * hsr1

lemma narrowingLoop_invariant (belowCriticalTemperature : ℝ → Bool)
    (steps : ℕ) :
    ∀ range : ℝ × ℝ, 0 < range.1 → range.1 ≤ range.2 →
      belowCriticalTemperature range.1 = true →
      belowCriticalTemperature range.2 = false →
      (0 < (narrowingLoop belowCriticalTemperature steps range).1 ∧
       (narrowingLoop belowCriticalTemperature steps range).1
         ≤ (narrowingLoop belowCriticalTemperature steps range).2 ∧
       belowCriticalTemperature
         (narrowingLoop belowCriticalTemperature steps range).1 = true ∧
       belowCriticalTemperature
         (narrowingLoop belowCriticalTemperature steps range).2
           = false) ∧
      ((narrowingLoop belowCriticalTemperature steps range).2
          / (narrowingLoop belowCriticalTemperature steps range).1)
          ^ (2 ^ steps)
        = range.2 / range.1 := by
  induction steps with
  | zero =>
    intro range hpos hle hlow hhigh
    exact ⟨⟨hpos, hle, hlow, hhigh⟩, by rw [narrowingLoop]; simp⟩
  | succ s ih =>
    intro range hpos hle hlow hhigh
    obtain ⟨hgpos, hgle, hglow, hghigh, hfrac⟩ :=
      narrowingStep_invariant belowCriticalTemperature range hpos hle
        hlow hhigh
    rw [narrowingLoop]
    obtain ⟨hinv, hloopfrac⟩ :=
      ih (narrowingStep belowCriticalTemperature range) hgpos hgle hglow
        hghigh
    refine ⟨hinv, ?_⟩
    have hdivpos : (0 : ℝ) ≤ range.2 / range.1 :=
      div_nonneg (lt_of_lt_of_le hpos hle).le hpos.le
    rw [pow_succ, pow_mul, hloopfrac, hfrac, Real.sq_sqrt hdivpos]

/-- C3: when the temperature search has found a bracket below the cap
(modelled by the hypotheses: the lower end is a positive temperature
confirmed below critical, the upper end is its double and is confirmed
not below critical), the refinement loop performs exactly
`temperatureAccuracy` iterations of geometric-mean bisection; at every
point during and after the loop the bracket ends stay confirmed on
their respective sides of the critical temperature, and after all
iterations the final bracket satisfies
`high / low ≤ 2 ^ (1 / 2 ^ (temperatureAccuracy - 1))`. -/
theorem temperatureNarrowing_invariant_and_bound
    (belowCriticalTemperature : ℝ → Bool) (temperatureAccuracy : ℕ)
    (range : ℝ × ℝ) (hpos : 0 < range.1)
    (hlow : belowCriticalTemperature range.1 = true)
    (hhigh : belowCriticalTemperature range.2 = false)
    (hdouble : range.2 = range.1 + range.1) :
    (∀ k ≤ temperatureAccuracy,
      belowCriticalTemperature
        (narrowingLoop belowCriticalTemperature k range).1 = true ∧
      belowCriticalTemperature
        (narrowingLoop belowCriticalTemperature k range).2 = false ∧
      0 < (narrowingLoop belowCriticalTemperature k range).1 ∧
      (narrowingLoop belowCriticalTemperature k range).1
        ≤ (narrowingLoop belowCriticalTemperature k range).2) ∧
    (narrowingLoop belowCriticalTemperature temperatureAccuracy range).2
        / (narrowingLoop belowCriticalTemperature temperatureAccuracy
            range).1
      ≤ (2 : ℝ) ^ ((1 : ℝ) / 2 ^ (temperatureAccuracy - 1)) := by
  have hle : range.1 ≤ range.2 := by rw [hdouble]; linarith
  constructor
  · intro k _
    obtain ⟨⟨h1, h2, h3, h4⟩, _⟩ :=
      narrowingLoop_invariant belowCriticalTemperature k range hpos hle
        hlow hhigh
    exact ⟨h3, h4, h1, h2⟩
  · obtain ⟨⟨h1, h2, _, _⟩, hfrac⟩ :=
      narrowingLoop_invariant belowCriticalTemperature
        temperatureAccuracy range hpos hle hlow hhigh
    have hstart : range.2 / range.1 = 2 := by
      rw [hdouble]
      field_simp
      ring
    rw [hstart] at hfrac
    set finalQuotient :=
      (narrowingLoop belowCriticalTemperature temperatureAccuracy
          range).2
        / (narrowingLoop belowCriticalTemperature temperatureAccuracy
            range).1 with hq
    have hq0 : 0 ≤ finalQuotient := div_nonneg (le_trans h1.le h2) h1.le
    have hy0 : (0 : ℝ)
        ≤ (2 : ℝ) ^ ((1 : ℝ) / 2 ^ (temperatureAccuracy - 1)) :=
      Real.rpow_nonneg (by norm_num) _
    refine (pow_le_pow_iff_left hq0 hy0
      (pow_ne_zero temperatureAccuracy two_ne_zero)).mp ?_
    have hypow : ((2 : ℝ) ^ ((1 : ℝ) / 2 ^ (temperatureAccuracy - 1)))
          ^ (2 ^ temperatureAccuracy)
        = (2 : ℝ) ^ (((1 : ℝ) / 2 ^ (temperatureAccuracy - 1))
            * (2 ^ temperatureAccuracy : ℕ)) := by
      rw [← Real.rpow_natCast ((2 : ℝ)
          ^ ((1 : ℝ) / 2 ^ (temperatureAccuracy - 1)))
          (2 ^ temperatureAccuracy),
        ← Real.rpow_mul (by norm_num)]
    rw [hfrac, hypow]
    have hexp1 : (1 : ℝ)
        ≤ ((1 : ℝ) / 2 ^ (temperatureAccuracy - 1))
            * (2 ^ temperatureAccuracy : ℕ) := by
      have hcast : ((2 ^ temperatureAccuracy : ℕ) : ℝ)
          = 2 ^ temperatureAccuracy := by push_cast; ring
      have hpowle : (2 : ℝ) ^ (temperatureAccuracy - 1)
          ≤ 2 ^ temperatureAccuracy :=
        pow_le_pow_right one_le_two (Nat.sub_le _ _)
      have h2pos : (0 : ℝ) < 2 ^ (temperatureAccuracy - 1) := by
        positivity
      rw [hcast, div_mul_eq_mul_div, one_mul, le_div_iff h2pos,
        one_mul]
      exact hpowle
    calc (2 : ℝ) = (2 : ℝ) ^ (1 : ℝ) := by rw [Real.rpow_one]
    _ ≤ (2 : ℝ) ^ (((1 : ℝ) / 2 ^ (temperatureAccuracy - 1))
          * (2 ^ temperatureAccuracy : ℕ)) := by
        exact Real.rpow_le_rpow_left_iff (by norm_num) |>.mpr hexp1

/-- Witness for C3 on the bracket (1, 2) with one accuracy bit. -/
theorem temperatureNarrowing_invariant_and_bound_witness :
    (0 : ℝ) < 1 ∧
    (narrowingLoop (fun t => decide (t ≤ 1)) 1 (1, 2)).2
        / (narrowingLoop (fun t => decide (t ≤ 1)) 1 (1, 2)).1
      ≤ (2 : ℝ) ^ ((1 : ℝ) / 2 ^ (1 - 1)) :=
  ⟨by norm_num,
    (temperatureNarrowing_invariant_and_bound (fun t => decide (t ≤ 1))
      1 (1, 2) (by norm_num) (by simp) (by norm_num)
      (by norm_num)).2⟩

/-- C8: counterexample showing the claim false and the code buggy.  For
two fields with reference field 0, `startNode = (0,0)` and
`endNode = (1,1)` (a difference vector with no zero component, hence
non-degenerate), `UpdateRotationMatrix` produces the matrix
`[[1/sqrt 2, 1], [1/sqrt 2, -sqrt 2]]`: its second column has squared
norm 3, so transpose-times-matrix is not the identity, contradicting
both the claim and the in-source comment that the construction yields
unit-length orthogonal vectors. -/
theorem updateRotationMatrix_not_orthonormal :
    ((fun _ : ℕ => (1 : ℝ)) 0 - (fun _ : ℕ => (0 : ℝ)) 0 ≠ 0) ∧
    ((fun _ : ℕ => (1 : ℝ)) 1 - (fun _ : ℕ => (0 : ℝ)) 1 ≠ 0) ∧
    (UpdateRotationMatrix 2 0 (fun _ => 0) (fun _ => 1)) 0 1 = 1 ∧
    (UpdateRotationMatrix 2 0 (fun _ => 0) (fun _ => 1)) 1 1
      = -Real.sqrt 2 ∧
    (UpdateRotationMatrix 2 0 (fun _ => 0) (fun _ => 1)) 0 1
        * (UpdateRotationMatrix 2 0 (fun _ => 0) (fun _ => 1)) 0 1
      + (UpdateRotationMatrix 2 0 (fun _ => 0) (fun _ => 1)) 1 1
        * (UpdateRotationMatrix 2 0 (fun _ => 0) (fun _ => 1)) 1 1
      = 3 ∧
    ¬ (∀ j j2 : ℕ, j < 2 → j2 < 2 →
        (Finset.range 2).sum (fun i =>
            (UpdateRotationMatrix 2 0 (fun _ => 0) (fun _ => 1)) i j
              * (UpdateRotationMatrix 2 0 (fun _ => 0) (fun _ => 1)) i
                  j2)
          = if j = j2 then 1 else 0) := by
  have hM01 : (UpdateRotationMatrix 2 0 (fun _ => 0) (fun _ => 1)) 0 1
      = 1 := by
    norm_num [UpdateRotationMatrix, gramSchmidtStep, List.range_succ]
  have hM11 : (UpdateRotationMatrix 2 0 (fun _ => 0) (fun _ => 1)) 1 1
      = -Real.sqrt 2 := by
    norm_num [UpdateRotationMatrix, gramSchmidtStep, List.range_succ]
  have hsq : -Real.sqrt 2 * -Real.sqrt 2 = 2 := by
    rw [neg_mul_neg, Real.mul_self_sqrt]
    norm_num
  refine ⟨by norm_num, by norm_num, hM01, hM11, ?_, ?_⟩
  · rw [hM01, hM11, hsq]
    norm_num
  · intro hortho
    have h11 := hortho 1 1 (by norm_num) (by norm_num)
    rw [if_pos rfl, Finset.sum_range_succ, Finset.sum_range_one,
      hM01, hM11, hsq] at h11
    norm_num at h11

end VevaciousPlusPlus
